import Mathlib

/-!
Verification of the 2D software rasterizer and GUI layout resolver of the
game_engine repository (src/game_engine/src/gfx/gfx_2d/components_2d.rs,
src/game_engine/src/gfx/texture.rs, src/game_engine/src/gfx/gui/text.rs).

Modelling conventions:
* u8 / u16 / u32 values are modelled as Nat; i32 values as Int.  Where the
  source relies on two's-complement reinterpretation (the `as u32` cast in
  the Surface2D bounds checks) we model the cast explicitly as reduction
  modulo 2^32.  Where the source would overflow an i32 in release mode
  (wrap) or panic in debug mode, the model uses unbounded Int arithmetic;
  no theorem below evaluates the code in that regime.
* f32 / f64 arithmetic is modelled by exact rational arithmetic over Rat.
  At every input where a theorem below evaluates these functions the f32
  computation of the source is exact (products of integers below 2^24 and
  divisions that the cast-to-integer cannot distinguish from the exact
  value), so the model agrees with the source there.  In particular for
  premultiply, r*a is an integer below 2^24 (exact in f32) and the true
  quotient r*a/255 is at distance at least 1/255 from any other integer,
  which is far larger than half an ulp of f32 at magnitudes up to 255, so
  truncating the rounded f32 quotient equals Nat floor division.
* Rust casts from a float to u8 saturate below 0 and above 255; all float
  values cast below are nonnegative, where truncation equals floor.
-/

/-- Model of image::Rgba([u8;4]): one stored pixel, channels in [0,255]. -/
structure Rgba where
  r : Nat
  g : Nat
  b : Nat
  a : Nat
deriving DecidableEq, Repr

/-- Model of texture::Color (four u8 channels r,g,b,a). -/
structure Color where
  r : Nat
  g : Nat
  b : Nat
  a : Nat
deriving DecidableEq, Repr

/-- Color::premultiply from texture.rs: each of r,g,b is scaled by a/255
(f32 arithmetic and cast, exactly Nat floor division, see header), alpha
kept. -/
def Color.premultiply (c : Color) : Color :=
  { r := c.r * c.a / 255
    g := c.g * c.a / 255
    b := c.b * c.a / 255
    a := c.a }

/-- Color::blend from texture.rs: out.c = src.c + dst.c*(255-src.a)/255 on
each channel.  The multiplication and division happen in u16 (exact as Nat,
the product is at most 255*255 = 65025 < 65536); the final addition is a u8
addition, modelled with the release-mode wraparound `% 256`. -/
def Color.blend (dst src : Color) : Color :=
  let inv_a := 255 - src.a
  { r := (src.r + dst.r * inv_a / 255) % 256
    g := (src.g + dst.g * inv_a / 255) % 256
    b := (src.b + dst.b * inv_a / 255) % 256
    a := (src.a + dst.a * inv_a / 255) % 256 }

/-- Into(image::Rgba) for Color from texture.rs: Rgba([r, g, b, a]). -/
def Color.toRgba (c : Color) : Rgba :=
  ⟨c.r, c.g, c.b, c.a⟩

/-- Modelled from the spec: the current crate has a module `crate::util`
whose function `from_color_to_rgba` is called by Surface2D but is not under
src/ (src/src/util.rs is an older revision without it).  The spec says the
Replace-mode pixel write "assigns premultiply(color)", so the conversion
premultiplies the color and reinterprets the channels as an Rgba pixel. -/
def from_color_to_rgba (c : Color) : Rgba :=
  c.premultiply.toRgba

/-- Two's-complement reinterpretation of an i32 value as a u32, written as
reduction modulo 2^32 (for x in [-2^31, 2^31) this is the Rust cast
`x as u32`). -/
def u32ofI32 (x : Int) : Nat :=
  (x % 4294967296).toNat

/-- Model of cgmath::Point2(i32). -/
structure P2 where
  x : Int
  y : Int
deriving DecidableEq, Repr

/-- Model of Surface2D: dimensions, the fill color, and the pixel grid of
the backing image::RgbaImage as a function on coordinates (only values at
coordinates below width/height are meaningful). -/
structure Surface where
  width : Nat
  height : Nat
  default_color : Rgba
  pix : Nat → Nat → Rgba

/-- Write one pixel of the backing image (image::RgbaImage::put_pixel). -/
def Surface.putPixel (s : Surface) (x y : Nat) (c : Rgba) : Surface :=
  { s with pix := fun i j => if i = x ∧ j = y then c else s.pix i j }

/-- Surface2D::draw_color_point: bounds check by u32-casting the i32
coordinates, then put_pixel with from_color_to_rgba(color). -/
def Surface.draw_color_point (s : Surface) (position : P2) (color : Color) : Surface :=
  if u32ofI32 position.x ≥ s.width ∨ u32ofI32 position.y ≥ s.height then s
  else s.putPixel (u32ofI32 position.x) (u32ofI32 position.y) (from_color_to_rgba color)

/-- Saturating cast of a nonnegative float (modelled as Rat) to u8:
truncation toward zero (equals floor on nonnegative values), clamped
at 255. -/
def u8ofRat (q : ℚ) : Nat :=
  min (⌊q⌋.toNat) 255

/-- Surface2D::draw_rgba_point: same bounds check, then premultiplied alpha
blending of the rgba argument over the current pixel, channel by channel in
f32 (modelled over Rat). -/
def Surface.draw_rgba_point (s : Surface) (position : P2) (rgba : Rgba) : Surface :=
  if u32ofI32 position.x ≥ s.width ∨ u32ofI32 position.y ≥ s.height then s
  else
    let px := s.pix (u32ofI32 position.x) (u32ofI32 position.y)
    let alpha : ℚ := (rgba.a : ℚ) / 255
    let inv_alpha : ℚ := 1 - alpha
    s.putPixel (u32ofI32 position.x) (u32ofI32 position.y)
      ⟨u8ofRat ((px.r : ℚ) * inv_alpha + (rgba.r : ℚ)),
       u8ofRat ((px.g : ℚ) * inv_alpha + (rgba.g : ℚ)),
       u8ofRat ((px.b : ℚ) * inv_alpha + (rgba.b : ℚ)),
       u8ofRat ((px.a : ℚ) * inv_alpha + (rgba.a : ℚ))⟩

/-- Loop body of Surface2D::draw_line_low: walking x one step at a time for
a given iteration count, emitting each plotted point; y and the decision
variable d evolve exactly as in the source. -/
def lineLowAux (yi dx dy : Int) : Nat → Int → Int → Int → List P2
  | 0, _, _, _ => []
  | n + 1, x, y, d =>
    ⟨x, y⟩ ::
      (if d > 0 then lineLowAux yi dx dy n (x + 1) (y + yi) (d + 2 * (dy - dx))
       else lineLowAux yi dx dy n (x + 1) y (d + 2 * dy))

/-- Surface2D::draw_line_low as the list of plotted points: dx = end.x -
start.x, dy and yi from the sign of end.y - start.y, d = 2*dy - dx, and the
loop runs for x in start.x..=end.x. -/
def drawLineLowPoints (s e : P2) : List P2 :=
  let dx := e.x - s.x
  let dy0 := e.y - s.y
  let yi : Int := if dy0 < 0 then -1 else 1
  let dy := if dy0 < 0 then -dy0 else dy0
  lineLowAux yi dx dy (dx + 1).toNat s.x s.y (2 * dy - dx)

/-- Loop body of Surface2D::draw_line_high, symmetric to lineLowAux with
the roles of x and y exchanged. -/
def lineHighAux (xi dx dy : Int) : Nat → Int → Int → Int → List P2
  | 0, _, _, _ => []
  | n + 1, x, y, d =>
    ⟨x, y⟩ ::
      (if d > 0 then lineHighAux xi dx dy n (x + xi) (y + 1) (d + 2 * (dx - dy))
       else lineHighAux xi dx dy n (x + xi) (y + 1) (d + 2 * dx))

/-- Surface2D::draw_line_high as the list of plotted points. -/
def drawLineHighPoints (s e : P2) : List P2 :=
  let dy := e.y - s.y
  let dx0 := e.x - s.x
  let xi : Int := if dx0 < 0 then -1 else 1
  let dx := if dx0 < 0 then -dx0 else dx0
  lineHighAux xi dx dy (dy + 1).toNat s.x s.y (2 * dx - dy)

/-- Surface2D::draw_line as the list of plotted points, in plotting order:
the vertical fast path (dx = 0), the horizontal fast path (dy = 0), and the
two Bresenham steppers, called with their endpoints ordered so the primary
axis increases. -/
def drawLinePoints (s e : P2) : List P2 :=
  let dx := (e.x - s.x).natAbs
  let dy := (e.y - s.y).natAbs
  if dx = 0 then
    let y0 := if e.y < s.y then e.y else s.y
    let y1 := if e.y < s.y then s.y else e.y
    (List.range (y1 - y0 + 1).toNat).map fun i => ⟨s.x, y0 + i⟩
  else if dy = 0 then
    let x0 := if e.x < s.x then e.x else s.x
    let x1 := if e.x < s.x then s.x else e.x
    (List.range (x1 - x0 + 1).toNat).map fun i => ⟨x0 + i, s.y⟩
  else if dy < dx then
    if s.x > e.x then drawLineLowPoints e s else drawLineLowPoints s e
  else
    if s.y > e.y then drawLineHighPoints e s else drawLineHighPoints s e

/-- Surface2D::draw_line acting on the surface: each plotted point is drawn
with draw_color_point, in plotting order. -/
def Surface.draw_line (s : Surface) (start e : P2) (color : Color) : Surface :=
  (drawLinePoints start e).foldl (fun acc p => acc.draw_color_point p color) s

/-- Truncation toward zero of a rational, the Rust cast of an f32 value to
i32 (saturation at the i32 range is irrelevant at the magnitudes any
theorem below evaluates). -/
def i32ofRat (q : ℚ) : Int :=
  Int.tdiv q.num q.den

/-- Vertex sort of Surface2D::draw_triangle_filled: the explicit six-case
comparison ordering the three points ascending by y. -/
def sortByY (p0 p1 p2 : P2) : P2 × P2 × P2 :=
  if p0.y > p1.y then
    if p1.y > p2.y then (p2, p1, p0)
    else if p0.y > p2.y then (p1, p2, p0)
    else (p1, p0, p2)
  else if p0.y > p2.y then (p2, p0, p1)
  else if p1.y > p2.y then (p0, p2, p1)
  else (p0, p1, p2)

/-- Scanline loop of Surface2D::draw_triangle_bottom_flat: for a given
iteration count, draw the horizontal span and advance the two running x
values by the inverse slopes, walking y upward. -/
def triBottomFlatAux (c : Color) (inv1 inv2 : ℚ) : Nat → Surface → ℚ → ℚ → Int → Surface
  | 0, s, _, _, _ => s
  | n + 1, s, x1, x2, y =>
    triBottomFlatAux c inv1 inv2 n
      (s.draw_line ⟨i32ofRat x1, y⟩ ⟨i32ofRat x2, y⟩ c)
      (x1 + inv1) (x2 + inv2) (y + 1)

/-- Surface2D::draw_triangle_bottom_flat: inverse slopes of the two edges
from p0, scanlines for y in p0.y..=p1.y starting at x = p0.x.  In the
degenerate all-equal-y case the f32 slopes are NaN or infinite while the
Rat model yields 0; the single span drawn is the same either way since the
running x values are used before their first update. -/
def Surface.draw_triangle_bottom_flat (s : Surface) (p0 p1 p2 : P2) (c : Color) : Surface :=
  let inv1 : ℚ := ((p1.x - p0.x : Int) : ℚ) / ((p1.y - p0.y : Int) : ℚ)
  let inv2 : ℚ := ((p2.x - p0.x : Int) : ℚ) / ((p2.y - p0.y : Int) : ℚ)
  triBottomFlatAux c inv1 inv2 (p1.y - p0.y + 1).toNat s ((p0.x : ℚ)) ((p0.x : ℚ)) p0.y

/-- Scanline loop of Surface2D::draw_triangle_top_flat: draw the horizontal
span, then step the two running x values down by the inverse slopes,
walking y downward. -/
def triTopFlatAux (c : Color) (inv1 inv2 : ℚ) : Nat → Surface → ℚ → ℚ → Int → Surface
  | 0, s, _, _, _ => s
  | n + 1, s, x1, x2, y =>
    triTopFlatAux c inv1 inv2 n
      (s.draw_line ⟨i32ofRat x1, y⟩ ⟨i32ofRat x2, y⟩ c)
      (x1 - inv1) (x2 - inv2) (y - 1)

/-- Surface2D::draw_triangle_top_flat: inverse slopes of the two edges into
p2, scanlines for y in (p0.y..p2.y).rev() (so from p2.y - 1 down to p0.y,
the apex row p2.y excluded) starting at x = p2.x. -/
def Surface.draw_triangle_top_flat (s : Surface) (p0 p1 p2 : P2) (c : Color) : Surface :=
  let inv1 : ℚ := ((p2.x - p0.x : Int) : ℚ) / ((p2.y - p0.y : Int) : ℚ)
  let inv2 : ℚ := ((p2.x - p1.x : Int) : ℚ) / ((p2.y - p1.y : Int) : ℚ)
  triTopFlatAux c inv1 inv2 (p2.y - p0.y).toNat s ((p2.x : ℚ)) ((p2.x : ℚ)) (p2.y - 1)

/-- Surface2D::draw_triangle_filled: sort by y, dispatch to the flat cases,
otherwise split at the interpolated fourth point on the long edge. -/
def Surface.draw_triangle_filled (s : Surface) (p0 p1 p2 : P2) (c : Color) : Surface :=
  let (q0, q1, q2) := sortByY p0 p1 p2
  if q1.y = q2.y then s.draw_triangle_bottom_flat q0 q1 q2 c
  else if q0.y = q1.y then s.draw_triangle_top_flat q0 q1 q2 c
  else
    let p3 : P2 :=
      ⟨i32ofRat ((q0.x : ℚ) +
          ((q1.y : ℚ) - (q0.y : ℚ)) / ((q2.y : ℚ) - (q0.y : ℚ)) * ((q2.x : ℚ) - (q0.x : ℚ))),
       q1.y⟩
    (s.draw_triangle_bottom_flat q0 q1 p3 c).draw_triangle_top_flat q1 p3 q2 c

/-- Surface2D::draw_triangle: fill or draw the three edges. -/
def Surface.draw_triangle (s : Surface) (p0 p1 p2 : P2) (c : Color) (fill : Bool) : Surface :=
  if fill then s.draw_triangle_filled p0 p1 p2 c
  else ((s.draw_line p0 p1 c).draw_line p1 p2 c).draw_line p2 p0 c

/-- Model of an image::RgbaImage used as a sprite: dimensions and pixels. -/
structure Sprite where
  width : Nat
  height : Nat
  pix : Nat → Nat → Rgba

/-- Pixel enumeration order of image::RgbaImage::enumerate_pixels: row
major, (x, y, pixel) with x varying fastest. -/
def Sprite.pixels (sp : Sprite) : List (Nat × Nat × Rgba) :=
  (List.range sp.height).flatMap fun y => (List.range sp.width).map fun x => (x, y, sp.pix x y)

/-- Surface2D::draw_sprite: every sprite pixel is composited at the
translated position with draw_rgba_point. -/
def Surface.draw_sprite (s : Surface) (sprite : Sprite) (position : P2) : Surface :=
  sprite.pixels.foldl
    (fun acc xyp =>
      acc.draw_rgba_point ⟨(xyp.1 : Int) + position.x, (xyp.2.1 : Int) + position.y⟩ xyp.2.2)
    s

/-- Model of GUITransform from components_2d.rs: Absolute pixel values
(u32) or Relative fractions of the parent transform (f32, modelled as
Rat). -/
inductive GUITransform where
  | absolute : Nat → Nat → GUITransform
  | relative : ℚ → ℚ → GUITransform

/-- Model of gui::text::TextParameters (the text, the point scale and
whether a custom font is supplied; the color is carried separately where
needed). -/
structure TextParams where
  text : String
  scale : ℚ
  customFont : Bool

/-- Model of GUIPanelContent from components_2d.rs: Text or Surface2D.
The texture produced from the content is GPU work outside this model; the
content does not influence the resolved geometry. -/
inductive GUIPanelContent where
  | text : TextParams → GUIPanelContent
  | surface2d : Surface → GUIPanelContent

/-- Model of GUIPanel from components_2d.rs: name, active flag, position
and dimensions transforms, content, and the owned children. -/
inductive GUIPanel where
  | mk : String → Bool → GUITransform → GUITransform → GUIPanelContent → List GUIPanel → GUIPanel

/-- Field accessor for the active flag of a panel. -/
def GUIPanel.active : GUIPanel → Bool
  | .mk _ a _ _ _ _ => a

/-- Field accessor for the position transform of a panel. -/
def GUIPanel.position : GUIPanel → GUITransform
  | .mk _ _ p _ _ _ => p

/-- Field accessor for the dimensions transform of a panel. -/
def GUIPanel.dimensions : GUIPanel → GUITransform
  | .mk _ _ _ d _ _ => d

/-- Field accessor for the children list of a panel. -/
def GUIPanel.children : GUIPanel → List GUIPanel
  | .mk _ _ _ _ _ c => c

/-- Resolved rectangle of one panel: the left, top, right, bottom values
computed by GUIPanel::buffer (f32 modelled as Rat). -/
structure RectQ where
  left : ℚ
  top : ℚ
  right : ℚ
  bottom : ℚ

/-- Geometry part of GUIPanel::buffer: (left,top) from the position
transform, (right,bottom) from the dimensions transform added to
(left,top), then each value clamped by .max(parent anchor).min(parent
dimension + parent anchor) on its axis, exactly as in the source. -/
def resolveRect (position dimensions : GUITransform) (anchor pdims : ℚ × ℚ) : RectQ :=
  let lt : ℚ × ℚ :=
    match position with
    | .absolute x y => (anchor.1 + (x : ℚ), anchor.2 + (y : ℚ))
    | .relative px py => (anchor.1 + pdims.1 * px, anchor.2 + pdims.2 * py)
  let rb : ℚ × ℚ :=
    match dimensions with
    | .absolute w h => (lt.1 + (w : ℚ), lt.2 + (h : ℚ))
    | .relative px py => (lt.1 + pdims.1 * px, lt.2 + pdims.2 * py)
  ⟨min (max lt.1 anchor.1) (pdims.1 + anchor.1),
   min (max lt.2 anchor.2) (pdims.2 + anchor.2),
   min (max rb.1 anchor.1) (pdims.1 + anchor.1),
   min (max rb.2 anchor.2) (pdims.2 + anchor.2)⟩

/-- Model of GUIPanelBuffered restricted to what the layout pass decides:
the resolved rectangle and the resolved children.  The vertex/index
buffers and the texture bind group are GPU uploads of exactly this data
and are out of scope. -/
inductive Resolved where
  | mk : RectQ → List Resolved → Resolved

/-- Field accessor for the rectangle of a resolved node. -/
def Resolved.rect : Resolved → RectQ
  | .mk r _ => r

/-- Field accessor for the children of a resolved node. -/
def Resolved.children : Resolved → List Resolved
  | .mk _ c => c

mutual
/-- GUIPanel::buffer: None when inactive, otherwise the clamped rectangle
and the children resolved against anchor (left,top) and dimensions
(right-left, bottom-top), keeping only the Some results in order. -/
def GUIPanel.buffer : GUIPanel → ℚ × ℚ → ℚ × ℚ → Option Resolved
  | .mk _ active position dimensions _ children, anchor, pdims =>
    if active then
      let rc := resolveRect position dimensions anchor pdims
      some (Resolved.mk rc
        (GUIPanel.bufferList children (rc.left, rc.top)
          (rc.right - rc.left, rc.bottom - rc.top)))
    else none

/-- Child collection loop of GUIPanel::buffer: push the buffered child
when it resolves to Some, skip it otherwise, preserving input order. -/
def GUIPanel.bufferList : List GUIPanel → ℚ × ℚ → ℚ × ℚ → List Resolved
  | [], _, _ => []
  | c :: cs, anchor, pdims =>
    match GUIPanel.buffer c anchor pdims with
    | some r => r :: GUIPanel.bufferList cs anchor pdims
    | none => GUIPanel.bufferList cs anchor pdims
end

/-- Model of wgpu::Color (four f64 channels, modelled as Rat). -/
structure ColorQ where
  r : ℚ
  g : ℚ
  b : ℚ
  a : ℚ

/-- Oracle value for one glyph that ab_glyph outlines: the saturating
usize casts of the outline bounds minimum, and the sequence of
(x, y, coverage) callbacks that outline.draw issues.  The font library is
an external collaborator; its outputs are universally quantified in the
theorems below. -/
structure GlyphOutline where
  minX : Nat
  minY : Nat
  draws : List (Nat × Nat × ℚ)

/-- Body of the outline.draw callback in TextRasterizer::rasterize: write
the four color bytes at the computed index when index + 3 is in range,
otherwise drop the write. -/
def writeGlyphPixel (data : List Nat) (index : Nat) (c : ℚ) (col : ColorQ) : List Nat :=
  if index + 3 < data.length then
    ((((data.set index (u8ofRat (c * col.r * 255))).set (index + 1)
        (u8ofRat (c * col.g * 255))).set (index + 2)
        (u8ofRat (c * col.b * 255))).set (index + 3)
        (u8ofRat (c * col.a * 255)))
  else data

/-- TextRasterizer::rasterize: start from a zero buffer of width*4*height
bytes and fold the draw callbacks of every outlined glyph over it (glyphs
without an outline contribute nothing). -/
def rasterize (outlines : List (Option GlyphOutline)) (width height : Nat) (col : ColorQ) :
    List Nat :=
  outlines.foldl
    (fun data og =>
      match og with
      | none => data
      | some o =>
        o.draws.foldl
          (fun d xyc =>
            writeGlyphPixel d (((o.minY + xyc.2.1) * width + (o.minX + xyc.1)) * 4) xyc.2.2 col)
          data)
    (List.replicate (width * 4 * height) 0)

/-- TextRasterizer::get_rasterized_data_from_text: the custom-font path
requires the font data to parse and a pixel scale to exist, the default
path requires only the pixel scale; every failing path falls through to
vec![0; width * 4 * height].  Font parsing, scale lookup, layout and
outlining are external, so they enter as oracle arguments. -/
def get_rasterized_data_from_text (customFont parseOk hasPxScale : Bool)
    (outlines : List (Option GlyphOutline)) (col : ColorQ) (width height : Nat) : List Nat :=
  if customFont then
    if parseOk then
      if hasPxScale then rasterize outlines width height col
      else List.replicate (width * 4 * height) 0
    else List.replicate (width * 4 * height) 0
  else
    if hasPxScale then rasterize outlines width height col
    else List.replicate (width * 4 * height) 0

/-- Wellformedness of a surface: every stored channel is a u8 value.
Every surface the engine constructs satisfies this. -/
def SurfaceWF (s : Surface) : Prop :=
  ∀ x y, (s.pix x y).r ≤ 255 ∧ (s.pix x y).g ≤ 255 ∧ (s.pix x y).b ≤ 255 ∧ (s.pix x y).a ≤ 255

/-- Concrete 8x8 surface cleared to transparent, used to exercise the
triangle rasterizer. -/
def testSurface8 : Surface :=
  ⟨8, 8, ⟨0, 0, 0, 0⟩, fun _ _ => ⟨0, 0, 0, 0⟩⟩

/-- Concrete fully opaque red test color. -/
def testRed : Color :=
  ⟨255, 0, 0, 255⟩

theorem i32ofRat_intCast (n : Int) : i32ofRat ((n : Int) : ℚ) = n := by
  simp [i32ofRat, Rat.num_intCast, Rat.den_intCast, Int.tdiv_one]

theorem i32ofRat_zero : i32ofRat 0 = 0 := by
  have h : ((0 : Int) : ℚ) = (0 : ℚ) := by norm_num
  rw [← h, i32ofRat_intCast]

theorem i32ofRat_one : i32ofRat 1 = 1 := by
  have h : ((1 : Int) : ℚ) = (1 : ℚ) := by norm_num
  rw [← h, i32ofRat_intCast]

theorem i32ofRat_two : i32ofRat 2 = 2 := by
  have h : ((2 : Int) : ℚ) = (2 : ℚ) := by norm_num
  rw [← h, i32ofRat_intCast]

theorem i32ofRat_three : i32ofRat 3 = 3 := by
  have h : ((3 : Int) : ℚ) = (3 : ℚ) := by norm_num
  rw [← h, i32ofRat_intCast]

theorem triTopFlatAux_succ (c : Color) (inv1 inv2 : ℚ) (n : Nat) (s : Surface) (x1 x2 : ℚ)
    (y : Int) :
    triTopFlatAux c inv1 inv2 (n + 1) s x1 x2 y =
      triTopFlatAux c inv1 inv2 n
        (s.draw_line ⟨i32ofRat x1, y⟩ ⟨i32ofRat x2, y⟩ c) (x1 - inv1) (x2 - inv2) (y - 1) := rfl

theorem triTopFlatAux_zero (c : Color) (inv1 inv2 : ℚ) (s : Surface) (x1 x2 : ℚ) (y : Int) :
    triTopFlatAux c inv1 inv2 0 s x1 x2 y = s := rfl

theorem triangle_test_unfold : testSurface8.draw_triangle ⟨0, 0⟩ ⟨4, 0⟩ ⟨0, 4⟩ testRed true =
    (((testSurface8.draw_line ⟨0, 3⟩ ⟨0, 3⟩ testRed).draw_line ⟨0, 2⟩ ⟨1, 2⟩ testRed).draw_line
      ⟨0, 1⟩ ⟨2, 1⟩ testRed).draw_line ⟨0, 0⟩ ⟨3, 0⟩ testRed := by
  rw [Surface.draw_triangle]
  rw [if_pos rfl]
  rw [Surface.draw_triangle_filled]
  norm_num [sortByY]
  rw [Surface.draw_triangle_top_flat]
  norm_num
  rw [show Int.toNat 4 = 3 + 1 from rfl, triTopFlatAux_succ]
  norm_num [i32ofRat_zero]
  rw [show (3 : Nat) = 2 + 1 from rfl, triTopFlatAux_succ]
  norm_num [i32ofRat_zero, i32ofRat_one]
  rw [show (2 : Nat) = 1 + 1 from rfl, triTopFlatAux_succ]
  norm_num [i32ofRat_zero, i32ofRat_one, i32ofRat_two]
  rw [show (1 : Nat) = 0 + 1 from rfl, triTopFlatAux_succ]
  norm_num [i32ofRat_zero, i32ofRat_one, i32ofRat_two, i32ofRat_three, triTopFlatAux_zero]

theorem triangle_test_pixels : ∀ x < 8, ∀ y < 8,
    ((((testSurface8.draw_line ⟨0, 3⟩ ⟨0, 3⟩ testRed).draw_line ⟨0, 2⟩ ⟨1, 2⟩ testRed).draw_line
      ⟨0, 1⟩ ⟨2, 1⟩ testRed).draw_line ⟨0, 0⟩ ⟨3, 0⟩ testRed).pix x y =
      if x + y ≤ 3 then ⟨255, 0, 0, 255⟩ else ⟨0, 0, 0, 0⟩ := by decide

theorem drawLinePoints_comm (a b : P2) : drawLinePoints a b = drawLinePoints b a := by
  simp only [drawLinePoints]
  have hdx : (a.x - b.x).natAbs = (b.x - a.x).natAbs := by
    rw [← Int.natAbs_neg (a.x - b.x)]; congr 1; ring
  have hdy : (a.y - b.y).natAbs = (b.y - a.y).natAbs := by
    rw [← Int.natAbs_neg (a.y - b.y)]; congr 1; ring
  rw [hdx, hdy]
  by_cases h1 : (b.x - a.x).natAbs = 0
  · have hx : a.x = b.x := by omega
    rw [if_pos h1, if_pos h1, hx]
    rcases lt_trichotomy a.y b.y with h | h | h
    · rw [if_neg (by omega : ¬ b.y < a.y), if_neg (by omega : ¬ b.y < a.y),
        if_pos h, if_pos h]
    · simp [h]
    · rw [if_pos h, if_pos h, if_neg (by omega : ¬ a.y < b.y), if_neg (by omega : ¬ a.y < b.y)]
  · rw [if_neg h1, if_neg h1]
    by_cases h2 : (b.y - a.y).natAbs = 0
    · have hy : a.y = b.y := by omega
      rw [if_pos h2, if_pos h2, hy]
      rcases lt_trichotomy a.x b.x with h | h | h
      · rw [if_neg (by omega : ¬ b.x < a.x), if_neg (by omega : ¬ b.x < a.x),
          if_pos h, if_pos h]
      · simp [h]
      · rw [if_pos h, if_pos h, if_neg (by omega : ¬ a.x < b.x), if_neg (by omega : ¬ a.x < b.x)]
    · rw [if_neg h2, if_neg h2]
      have hxne : a.x ≠ b.x := by intro h; apply h1; rw [h]; simp
      have hyne : a.y ≠ b.y := by intro h; apply h2; rw [h]; simp
      by_cases h3 : (b.y - a.y).natAbs < (b.x - a.x).natAbs
      · rw [if_pos h3, if_pos h3]
        rcases lt_or_gt_of_ne hxne with h | h
        · rw [if_neg (by omega : ¬ a.x > b.x), if_pos (by omega : b.x > a.x)]
        · rw [if_pos (by omega : a.x > b.x), if_neg (by omega : ¬ b.x > a.x)]
      · rw [if_neg h3, if_neg h3]
        rcases lt_or_gt_of_ne hyne with h | h
        · rw [if_neg (by omega : ¬ a.y > b.y), if_pos (by omega : b.y > a.y)]
        · rw [if_pos (by omega : a.y > b.y), if_neg (by omega : ¬ b.y > a.y)]

theorem u32ofI32_toNat (x : Int) (h1 : 0 ≤ x) (h2 : x < 4294967296) :
    u32ofI32 x = x.toNat := by
  unfold u32ofI32; omega

theorem u32ofI32_oob (x : Int) (w : Nat) (hw : w ≤ 2 ^ 31) (h1 : -(2 ^ 31) ≤ x)
    (h2 : x < 2 ^ 31) (h : x < 0 ∨ (w : Int) ≤ x) : u32ofI32 x ≥ w := by
  unfold u32ofI32; omega

theorem chanTermBound (d a : Nat) (hd : d ≤ 255) : d * (255 - a) / 255 ≤ 255 - a := by
  calc d * (255 - a) / 255 ≤ 255 * (255 - a) / 255 :=
        Nat.div_le_div_right (Nat.mul_le_mul_right _ hd)
    _ = 255 - a := Nat.mul_div_cancel_left _ (by norm_num)

theorem blendFullCover (dst src : Color)
    (h1 : src.r ≤ 255) (h2 : src.g ≤ 255) (h3 : src.b ≤ 255)
    (ha : src.a = 255) : Color.blend dst src = src := by
  cases dst with
  | mk dr dg db da =>
    cases src with
    | mk sr sg sb sa =>
      simp only [Color.blend, Color.mk.injEq]
      simp only at h1 h2 h3 ha
      subst ha
      refine ⟨?_, ?_, ?_, ?_⟩ <;> omega

theorem blendNoCover (dst : Color)
    (h1 : dst.r ≤ 255) (h2 : dst.g ≤ 255) (h3 : dst.b ≤ 255) (h4 : dst.a ≤ 255) :
    Color.blend dst ⟨0, 0, 0, 0⟩ = dst := by
  cases dst with
  | mk dr dg db da =>
    simp only [Color.blend, Color.mk.injEq]
    simp only at h1 h2 h3 h4
    refine ⟨?_, ?_, ?_, ?_⟩ <;> omega

theorem u8ofRat_natCast (n : Nat) (h : n ≤ 255) : u8ofRat ((n : Nat) : ℚ) = n := by
  unfold u8ofRat
  rw [Int.floor_natCast]
  simp [h]

theorem zero_point_noop (s : Surface) (p : P2) (hwf : SurfaceWF s) :
    ∀ x y, (s.draw_rgba_point p ⟨0, 0, 0, 0⟩).pix x y = s.pix x y := by
  intro x y
  rw [Surface.draw_rgba_point]
  split
  · rfl
  · simp only
    have hq : ∀ n : Nat, n ≤ 255 →
        u8ofRat ((n : ℚ) * (1 - (((0 : Nat) : ℚ)) / 255) + ((0 : Nat) : ℚ)) = n := by
      intro n hn
      have heq : ((n : ℚ) * (1 - (((0 : Nat) : ℚ)) / 255) + ((0 : Nat) : ℚ)) = ((n : Nat) : ℚ) := by
        push_cast
        ring
      rw [heq, u8ofRat_natCast n hn]
    obtain ⟨h1, h2, h3, h4⟩ := hwf (u32ofI32 p.x) (u32ofI32 p.y)
    rw [Surface.putPixel]
    simp only
    rw [hq _ h1, hq _ h2, hq _ h3, hq _ h4]
    split
    · next h =>
      obtain ⟨hx, hy⟩ := h
      subst hx
      subst hy
      rfl
    · rfl

theorem fold_zero_noop (q : P2) (l : List (Nat × Nat × Rgba))
    (hl : ∀ e ∈ l, e.2.2 = (⟨0, 0, 0, 0⟩ : Rgba)) :
    ∀ s : Surface, SurfaceWF s →
      ∀ x y,
        ((l.foldl
          (fun acc xyp =>
            acc.draw_rgba_point ⟨(xyp.1 : Int) + q.x, (xyp.2.1 : Int) + q.y⟩ xyp.2.2) s)).pix x y
          = s.pix x y := by
  induction l with
  | nil =>
    intro s _ x y
    rfl
  | cons e t ih =>
    intro s hwf x y
    rw [List.foldl_cons]
    have he : e.2.2 = (⟨0, 0, 0, 0⟩ : Rgba) := hl e (List.mem_cons_self e t)
    rw [he]
    have hstep := zero_point_noop s ⟨(e.1 : Int) + q.x, (e.2.1 : Int) + q.y⟩ hwf
    have hwf1 :
        SurfaceWF (s.draw_rgba_point ⟨(e.1 : Int) + q.x, (e.2.1 : Int) + q.y⟩ ⟨0, 0, 0, 0⟩) := by
      intro i j
      rw [hstep i j]
      exact hwf i j
    rw [ih (fun a ha => hl a (List.mem_cons_of_mem e ha)) _ hwf1 x y, hstep x y]

theorem sprite_zero_noop (s : Surface) (w h : Nat) (q : P2) (hwf : SurfaceWF s) :
    ∀ x y, (s.draw_sprite ⟨w, h, fun _ _ => ⟨0, 0, 0, 0⟩⟩ q).pix x y = s.pix x y := by
  intro x y
  rw [Surface.draw_sprite]
  refine fold_zero_noop q _ ?_ s hwf x y
  intro e he
  simp only [Sprite.pixels, List.mem_flatMap, List.mem_map] at he
  obtain ⟨yy, _, xx, _, rfl⟩ := he
  rfl

theorem clamp_mem (v a w : ℚ) (hw : 0 ≤ w) :
    a ≤ min (max v a) (w + a) ∧ min (max v a) (w + a) ≤ a + w := by
  constructor
  · exact le_min (le_max_right v a) (by linarith)
  · calc min (max v a) (w + a) ≤ w + a := min_le_right _ _
      _ = a + w := by ring

theorem buffer_eq_some (p : GUIPanel) (anchor pdims : ℚ × ℚ) (r : Resolved)
    (h : p.buffer anchor pdims = some r) :
    p.active = true ∧
      r.rect = resolveRect p.position p.dimensions anchor pdims ∧
      r.children =
        GUIPanel.bufferList p.children
          (r.rect.left, r.rect.top) (r.rect.right - r.rect.left, r.rect.bottom - r.rect.top) := by
  cases p with
  | mk n a pos dims cont cs =>
    rw [GUIPanel.buffer] at h
    by_cases ha : a = true
    · subst ha
      rw [if_pos rfl] at h
      injection h with h
      subst h
      exact ⟨rfl, rfl, rfl⟩
    · rw [if_neg ha] at h
      exact absurd h (by simp)

theorem buffer_none_iff (p : GUIPanel) (anchor pdims : ℚ × ℚ) :
    p.buffer anchor pdims = none ↔ p.active = false := by
  cases p with
  | mk n a pos dims cont cs =>
    rw [GUIPanel.buffer]
    cases a <;> simp [GUIPanel.active]

theorem mem_bufferList (cs : List GUIPanel) (anchor pdims : ℚ × ℚ) (r : Resolved)
    (h : r ∈ GUIPanel.bufferList cs anchor pdims) :
    ∃ c ∈ cs, c.buffer anchor pdims = some r := by
  induction cs with
  | nil =>
    rw [GUIPanel.bufferList] at h
    exact absurd h (by simp)
  | cons c cs ih =>
    rw [GUIPanel.bufferList] at h
    revert h
    split
    · next r0 heq =>
      intro h
      rcases List.mem_cons.mp h with h | h
      · exact ⟨c, List.mem_cons_self c cs, h ▸ heq⟩
      · obtain ⟨c1, hc1, hb⟩ := ih h
        exact ⟨c1, List.mem_cons_of_mem c hc1, hb⟩
    · next heq =>
      intro h
      obtain ⟨c1, hc1, hb⟩ := ih h
      exact ⟨c1, List.mem_cons_of_mem c hc1, hb⟩

theorem resolveRect_bounds (position dimensions : GUITransform) (anchor pdims : ℚ × ℚ)
    (hw : 0 ≤ pdims.1) (hh : 0 ≤ pdims.2) :
    (anchor.1 ≤ (resolveRect position dimensions anchor pdims).left ∧
      (resolveRect position dimensions anchor pdims).left ≤ anchor.1 + pdims.1) ∧
    (anchor.2 ≤ (resolveRect position dimensions anchor pdims).top ∧
      (resolveRect position dimensions anchor pdims).top ≤ anchor.2 + pdims.2) ∧
    (anchor.1 ≤ (resolveRect position dimensions anchor pdims).right ∧
      (resolveRect position dimensions anchor pdims).right ≤ anchor.1 + pdims.1) ∧
    (anchor.2 ≤ (resolveRect position dimensions anchor pdims).bottom ∧
      (resolveRect position dimensions anchor pdims).bottom ≤ anchor.2 + pdims.2) := by
  unfold resolveRect
  cases position <;> cases dimensions <;>
    exact ⟨clamp_mem _ _ _ hw, clamp_mem _ _ _ hh, clamp_mem _ _ _ hw, clamp_mem _ _ _ hh⟩

theorem child_contained (p : GUIPanel) (anchor pdims : ℚ × ℚ) (r : Resolved) (c : Resolved)
    (h : p.buffer anchor pdims = some r) (hc : c ∈ r.children)
    (hlr : r.rect.left ≤ r.rect.right) (htb : r.rect.top ≤ r.rect.bottom) :
    (r.rect.left ≤ c.rect.left ∧ c.rect.left ≤ r.rect.right) ∧
    (r.rect.top ≤ c.rect.top ∧ c.rect.top ≤ r.rect.bottom) ∧
    (r.rect.left ≤ c.rect.right ∧ c.rect.right ≤ r.rect.right) ∧
    (r.rect.top ≤ c.rect.bottom ∧ c.rect.bottom ≤ r.rect.bottom) := by
  obtain ⟨-, -, hch⟩ := buffer_eq_some p anchor pdims r h
  rw [hch] at hc
  obtain ⟨c1, -, hb⟩ := mem_bufferList _ _ _ _ hc
  obtain ⟨-, hrect, -⟩ := buffer_eq_some c1 _ _ c hb
  have hbounds := resolveRect_bounds c1.position c1.dimensions
    (r.rect.left, r.rect.top) (r.rect.right - r.rect.left, r.rect.bottom - r.rect.top)
    (by simpa using hlr) (by simpa using htb)
  rw [← hrect] at hbounds
  simp only at hbounds
  obtain ⟨⟨a1, a2⟩, ⟨b1, b2⟩, ⟨c1h, c2h⟩, ⟨d1, d2⟩⟩ := hbounds
  refine ⟨⟨a1, by linarith⟩, ⟨b1, by linarith⟩, ⟨c1h, by linarith⟩, ⟨d1, by linarith⟩⟩

theorem bufferList_eq_filterMap (cs : List GUIPanel) (anchor pdims : ℚ × ℚ) :
    GUIPanel.bufferList cs anchor pdims = cs.filterMap (fun c => c.buffer anchor pdims) := by
  induction cs with
  | nil =>
    rw [GUIPanel.bufferList]
    rfl
  | cons c cs ih =>
    rw [GUIPanel.bufferList, List.filterMap_cons]
    split
    · next heq =>
      rw [heq, ih]
    · next r0 heq =>
      rw [heq, ih]

theorem filterMap_buffer_filter_active (cs : List GUIPanel) (anchor pdims : ℚ × ℚ) :
    cs.filterMap (fun c => c.buffer anchor pdims) =
      (cs.filter (fun c => c.active)).filterMap (fun c => c.buffer anchor pdims) := by
  induction cs with
  | nil => rfl
  | cons c cs ih =>
    by_cases hc : c.active = true
    · rw [List.filter_cons_of_pos (by simpa using hc), List.filterMap_cons,
        List.filterMap_cons, ih]
    · have hnone := (buffer_none_iff c anchor pdims).mpr (by simpa using hc)
      rw [List.filter_cons_of_neg (by simpa using hc), List.filterMap_cons, hnone, ih]

theorem writeGlyphPixel_length (data : List Nat) (index : Nat) (c : ℚ) (col : ColorQ) :
    (writeGlyphPixel data index c col).length = data.length := by
  unfold writeGlyphPixel
  split <;> simp

theorem rasterize_length (outlines : List (Option GlyphOutline)) (width height : Nat)
    (col : ColorQ) : (rasterize outlines width height col).length = width * 4 * height := by
  unfold rasterize
  have hstep : ∀ (l : List (Option GlyphOutline)) (d : List Nat),
      (l.foldl
        (fun data og =>
          match og with
          | none => data
          | some o =>
            o.draws.foldl
              (fun d xyc =>
                writeGlyphPixel d (((o.minY + xyc.2.1) * width + (o.minX + xyc.1)) * 4) xyc.2.2
                  col)
              data)
        d).length = d.length := by
    intro l
    induction l with
    | nil =>
      intro d
      rfl
    | cons og t ih =>
      intro d
      rw [List.foldl_cons]
      cases og with
      | none => exact ih d
      | some o =>
        rw [ih]
        have hinner : ∀ (dl : List (Nat × Nat × ℚ)) (d0 : List Nat),
            (dl.foldl
              (fun d xyc =>
                writeGlyphPixel d (((o.minY + xyc.2.1) * width + (o.minX + xyc.1)) * 4) xyc.2.2
                  col)
              d0).length = d0.length := by
          intro dl
          induction dl with
          | nil =>
            intro d0
            rfl
          | cons e t2 ih2 =>
            intro d0
            rw [List.foldl_cons, ih2, writeGlyphPixel_length]
        exact hinner o.draws d
  rw [hstep]
  simp

/-- C1: for every in-bounds position and every color, writing with
Surface2D::draw_color_point (the spec's Replace-mode draw_pixel) and then
reading the cell at that position yields premultiply(color): the stored
channels are r, g, b scaled by a/255 with alpha unchanged. -/
theorem claim_C1_replace_write_reads_premultiplied (s : Surface) (p : P2) (c : Color)
    (hx0 : 0 ≤ p.x) (hx1 : p.x < 2 ^ 31) (hxw : p.x.toNat < s.width)
    (hy0 : 0 ≤ p.y) (hy1 : p.y < 2 ^ 31) (hyh : p.y.toNat < s.height) :
    (s.draw_color_point p c).pix p.x.toNat p.y.toNat = c.premultiply.toRgba := by
  rw [Surface.draw_color_point]
  rw [u32ofI32_toNat p.x hx0 (by omega), u32ofI32_toNat p.y hy0 (by omega)]
  rw [if_neg (by omega)]
  rw [Surface.putPixel]
  simp [from_color_to_rgba]

/-- Witness for C1: on a 4x4 transparent surface, drawing (10,20,30,51) at
(1,2) stores (2,4,6,51), the premultiplied color (51/255 = 1/5). -/
theorem claim_C1_witness :
    ((⟨4, 4, ⟨0, 0, 0, 0⟩, fun _ _ => ⟨0, 0, 0, 0⟩⟩ : Surface).draw_color_point ⟨1, 2⟩
        ⟨10, 20, 30, 51⟩).pix 1 2 = (⟨2, 4, 6, 51⟩ : Rgba) := by
  have h := claim_C1_replace_write_reads_premultiplied
    (⟨4, 4, ⟨0, 0, 0, 0⟩, fun _ _ => ⟨0, 0, 0, 0⟩⟩ : Surface) ⟨1, 2⟩ ⟨10, 20, 30, 51⟩
    (by decide) (by decide) (by decide) (by decide) (by decide) (by decide)
  exact h

/-- C2 counterexample: draw_triangle((0,0),(4,0),(0,4), fill) on the 8x8
test surface does NOT color the point (0,4), although that point satisfies
x >= 0, y >= 0, x + y <= 4 and so belongs to the 15-point set the claim
says is colored: the cell still holds the clear color, which differs from
the written premultiplied color. -/
theorem claim_C2_counterexample :
    (testSurface8.draw_triangle ⟨0, 0⟩ ⟨4, 0⟩ ⟨0, 4⟩ testRed true).pix 0 4 = (⟨0, 0, 0, 0⟩ : Rgba) ∧
    from_color_to_rgba testRed ≠ (⟨0, 0, 0, 0⟩ : Rgba) ∧
    (0 : Nat) + 4 ≤ 4 := by
  refine ⟨?_, by decide, by decide⟩
  rw [triangle_test_unfold]
  decide

/-- C2 amended: draw_triangle((0,0),(4,0),(0,4), fill=true) on the 8x8
test surface colors exactly the 10 integer points satisfying x >= 0,
y >= 0, x + y <= 3 (the top-flat scanline loop excludes the apex row and
starts its spans one row early), and no other cell of the surface
changes. -/
theorem claim_C2_amended_triangle_covers_ten_points : ∀ x < 8, ∀ y < 8,
    (testSurface8.draw_triangle ⟨0, 0⟩ ⟨4, 0⟩ ⟨0, 4⟩ testRed true).pix x y =
      if x + y ≤ 3 then ⟨255, 0, 0, 255⟩ else ⟨0, 0, 0, 0⟩ := by
  intro x hx y hy
  rw [triangle_test_unfold]
  exact triangle_test_pixels x hx y hy

/-- Witness for C2 amended: the cell (0,0) is colored with the
premultiplied red. -/
theorem claim_C2_witness :
    (testSurface8.draw_triangle ⟨0, 0⟩ ⟨4, 0⟩ ⟨0, 4⟩ testRed true).pix 0 0 =
      (⟨255, 0, 0, 255⟩ : Rgba) := by
  have h := claim_C2_amended_triangle_covers_ten_points 0 (by norm_num) 0 (by norm_num)
  simpa using h

/-- C3: draw_line(a, b, c) and draw_line(b, a, c) plot exactly the same
points in all three paths (vertical fast path, horizontal fast path, and
the two Bresenham steppers, which receive their endpoints sorted along the
primary axis), hence the surfaces after the two calls are identical. -/
theorem claim_C3_draw_line_endpoint_symmetric (a b : P2) (c : Color) (s : Surface) :
    drawLinePoints a b = drawLinePoints b a ∧ s.draw_line a b c = s.draw_line b a c := by
  refine ⟨drawLinePoints_comm a b, ?_⟩
  rw [Surface.draw_line, Surface.draw_line, drawLinePoints_comm]

/-- C4 counterexample: on a surface of width 2^32 - 1 the out-of-bounds
position (-2, 0) is NOT dropped: the i32-to-u32 cast in the bounds check
wraps -2 to 2^32 - 2, which is inside [0, width), so the write lands on
the cell (2^32 - 2, 0) and changes it. -/
theorem claim_C4_counterexample :
    ((-2 : Int) < 0) ∧
      (Surface.draw_color_point
          (⟨4294967295, 1, ⟨0, 0, 0, 0⟩, fun _ _ => ⟨0, 0, 0, 0⟩⟩ : Surface)
          ⟨-2, 0⟩ ⟨255, 0, 0, 255⟩).pix 4294967294 0 ≠
        (⟨0, 0, 0, 0⟩ : Rgba) := by
  constructor
  · decide
  · rw [Surface.draw_color_point]
    rw [if_neg (by unfold u32ofI32; decide)]
    rw [Surface.putPixel]
    simp only
    rw [if_pos (by unfold u32ofI32; omega)]
    decide

/-- C4 amended: for surfaces whose width and height do not exceed 2^31
(any allocatable image), every position outside [0,width) x [0,height) -
including negative coordinates - makes draw_color_point and
draw_rgba_point return the surface unchanged: the write is silently
dropped, never an error. -/
theorem claim_C4_amended_out_of_bounds_writes_dropped (s : Surface) (p : P2) (c : Color)
    (rgba : Rgba)
    (hw : s.width ≤ 2 ^ 31) (hh : s.height ≤ 2 ^ 31)
    (hx0 : -(2 ^ 31) ≤ p.x) (hx1 : p.x < 2 ^ 31)
    (hy0 : -(2 ^ 31) ≤ p.y) (hy1 : p.y < 2 ^ 31)
    (hout : ¬(0 ≤ p.x ∧ p.x < (s.width : Int) ∧ 0 ≤ p.y ∧ p.y < (s.height : Int))) :
    s.draw_color_point p c = s ∧ s.draw_rgba_point p rgba = s := by
  have hcond : u32ofI32 p.x ≥ s.width ∨ u32ofI32 p.y ≥ s.height := by
    rcases (by omega : p.x < 0 ∨ (s.width : Int) ≤ p.x ∨ p.y < 0 ∨ (s.height : Int) ≤ p.y) with
      h | h | h | h
    · exact Or.inl (u32ofI32_oob p.x s.width hw hx0 hx1 (Or.inl h))
    · exact Or.inl (u32ofI32_oob p.x s.width hw hx0 hx1 (Or.inr h))
    · exact Or.inr (u32ofI32_oob p.y s.height hh hy0 hy1 (Or.inl h))
    · exact Or.inr (u32ofI32_oob p.y s.height hh hy0 hy1 (Or.inr h))
  constructor
  · rw [Surface.draw_color_point, if_pos hcond]
  · rw [Surface.draw_rgba_point, if_pos hcond]

/-- Witness for C4 amended: writing at (-1, 2) on a 4x4 surface leaves the
surface unchanged for both pixel-write operations. -/
theorem claim_C4_witness :
    (⟨4, 4, ⟨0, 0, 0, 0⟩, fun _ _ => ⟨0, 0, 0, 0⟩⟩ : Surface).draw_color_point ⟨-1, 2⟩
        ⟨1, 2, 3, 4⟩ =
      (⟨4, 4, ⟨0, 0, 0, 0⟩, fun _ _ => ⟨0, 0, 0, 0⟩⟩ : Surface) ∧
    (⟨4, 4, ⟨0, 0, 0, 0⟩, fun _ _ => ⟨0, 0, 0, 0⟩⟩ : Surface).draw_rgba_point ⟨-1, 2⟩
        ⟨5, 6, 7, 8⟩ =
      (⟨4, 4, ⟨0, 0, 0, 0⟩, fun _ _ => ⟨0, 0, 0, 0⟩⟩ : Surface) :=
  claim_C4_amended_out_of_bounds_writes_dropped
    (⟨4, 4, ⟨0, 0, 0, 0⟩, fun _ _ => ⟨0, 0, 0, 0⟩⟩ : Surface) ⟨-1, 2⟩ ⟨1, 2, 3, 4⟩ ⟨5, 6, 7, 8⟩
    (by decide) (by decide) (by decide) (by decide) (by decide) (by decide) (by decide)

/-- C5 counterexample: a panel at Absolute(50,50) with Relative(-1/2,-1/2)
dimensions under a (0,0)-(100,100) parent resolves to the inverted
rectangle (50,50,0,0); its child is then clamped into the inverted
interval and resolves to (0,0,0,0), whose left edge 0 lies strictly
outside the parent rectangle (left 50): the resolved child rectangle is
not contained in (nor equal to) the parent's resolved rectangle. -/
theorem claim_C5_counterexample :
    GUIPanel.buffer
        (GUIPanel.mk "parent" true (.absolute 50 50) (.relative (-(1 / 2)) (-(1 / 2)))
          (.text ⟨"t", 1, false⟩)
          [GUIPanel.mk "child" true (.absolute 0 0) (.absolute 10 10)
            (.text ⟨"t", 1, false⟩) []])
        (0, 0) (100, 100) =
      some (Resolved.mk ⟨50, 50, 0, 0⟩ [Resolved.mk ⟨0, 0, 0, 0⟩ []]) ∧
    ¬((50 : ℚ) ≤ (0 : ℚ)) := by
  constructor
  · rw [GUIPanel.buffer]
    rw [if_pos rfl]
    norm_num [resolveRect, min_def, max_def]
    rw [GUIPanel.bufferList, GUIPanel.buffer, if_pos rfl]
    norm_num [resolveRect, min_def, max_def]
    rw [GUIPanel.bufferList]
    exact ⟨rfl, rfl⟩
  · norm_num

/-- C5 amended: for every panel and every non-negative parent dimensions,
each of left, top, right, bottom of the resolved rectangle is clamped into
[parent anchor, parent anchor + parent dimension] on its axis; and
whenever a resolved node's own rectangle is non-inverted (left <= right
and top <= bottom), every one of its resolved children's rectangle edges
lies inside it, so the child rectangle is contained in the parent
rectangle.  (The unconditional containment of the original claim fails
when clamping inverts the parent rectangle, see the counterexample.) -/
theorem claim_C5_amended_clamped_layout_containment :
    (∀ (position dimensions : GUITransform) (anchor pdims : ℚ × ℚ),
      0 ≤ pdims.1 → 0 ≤ pdims.2 →
        (anchor.1 ≤ (resolveRect position dimensions anchor pdims).left ∧
          (resolveRect position dimensions anchor pdims).left ≤ anchor.1 + pdims.1) ∧
        (anchor.2 ≤ (resolveRect position dimensions anchor pdims).top ∧
          (resolveRect position dimensions anchor pdims).top ≤ anchor.2 + pdims.2) ∧
        (anchor.1 ≤ (resolveRect position dimensions anchor pdims).right ∧
          (resolveRect position dimensions anchor pdims).right ≤ anchor.1 + pdims.1) ∧
        (anchor.2 ≤ (resolveRect position dimensions anchor pdims).bottom ∧
          (resolveRect position dimensions anchor pdims).bottom ≤ anchor.2 + pdims.2)) ∧
    (∀ (p : GUIPanel) (anchor pdims : ℚ × ℚ) (r c : Resolved),
      p.buffer anchor pdims = some r → c ∈ r.children →
      r.rect.left ≤ r.rect.right → r.rect.top ≤ r.rect.bottom →
        (r.rect.left ≤ c.rect.left ∧ c.rect.left ≤ r.rect.right) ∧
        (r.rect.top ≤ c.rect.top ∧ c.rect.top ≤ r.rect.bottom) ∧
        (r.rect.left ≤ c.rect.right ∧ c.rect.right ≤ r.rect.right) ∧
        (r.rect.top ≤ c.rect.bottom ∧ c.rect.bottom ≤ r.rect.bottom)) :=
  ⟨fun position dimensions anchor pdims hw hh =>
      resolveRect_bounds position dimensions anchor pdims hw hh,
   fun p anchor pdims r c h hc hlr htb => child_contained p anchor pdims r c h hc hlr htb⟩

/-- Witness for C5 amended: the clamp bounds at the spec's own example
(Absolute(150,0) position, Absolute(50,50) dimensions, parent
(0,0)-(100,100)), and the containment of a concrete child rectangle
(15,15,20,20) in its concrete parent rectangle (10,10,30,30). -/
theorem claim_C5_witness :
    (((0 : ℚ) ≤ (resolveRect (.absolute 150 0) (.absolute 50 50) (0, 0) (100, 100)).left ∧
      (resolveRect (.absolute 150 0) (.absolute 50 50) (0, 0) (100, 100)).left ≤ 0 + 100) ∧
     ((0 : ℚ) ≤ (resolveRect (.absolute 150 0) (.absolute 50 50) (0, 0) (100, 100)).top ∧
      (resolveRect (.absolute 150 0) (.absolute 50 50) (0, 0) (100, 100)).top ≤ 0 + 100) ∧
     ((0 : ℚ) ≤ (resolveRect (.absolute 150 0) (.absolute 50 50) (0, 0) (100, 100)).right ∧
      (resolveRect (.absolute 150 0) (.absolute 50 50) (0, 0) (100, 100)).right ≤ 0 + 100) ∧
     ((0 : ℚ) ≤ (resolveRect (.absolute 150 0) (.absolute 50 50) (0, 0) (100, 100)).bottom ∧
      (resolveRect (.absolute 150 0) (.absolute 50 50) (0, 0) (100, 100)).bottom ≤ 0 + 100)) ∧
    (((10 : ℚ) ≤ 15 ∧ (15 : ℚ) ≤ 30) ∧ ((10 : ℚ) ≤ 15 ∧ (15 : ℚ) ≤ 30) ∧
      ((10 : ℚ) ≤ 20 ∧ (20 : ℚ) ≤ 30) ∧ ((10 : ℚ) ≤ 20 ∧ (20 : ℚ) ≤ 30)) := by
  have hb : GUIPanel.buffer
      (GUIPanel.mk "p" true (.absolute 10 10) (.absolute 20 20) (.text ⟨"t", 1, false⟩)
        [GUIPanel.mk "c" true (.absolute 5 5) (.absolute 5 5) (.text ⟨"t", 1, false⟩) []])
      (0, 0) (100, 100) =
      some (Resolved.mk ⟨10, 10, 30, 30⟩ [Resolved.mk ⟨15, 15, 20, 20⟩ []]) := by
    rw [GUIPanel.buffer]
    rw [if_pos rfl]
    norm_num [resolveRect, min_def, max_def]
    rw [GUIPanel.bufferList, GUIPanel.buffer, if_pos rfl]
    norm_num [resolveRect, min_def, max_def]
    rw [GUIPanel.bufferList]
    exact ⟨rfl, rfl⟩
  constructor
  · exact claim_C5_amended_clamped_layout_containment.1 (.absolute 150 0) (.absolute 50 50)
      (0, 0) (100, 100) (by norm_num) (by norm_num)
  · exact claim_C5_amended_clamped_layout_containment.2 _ (0, 0) (100, 100)
      (Resolved.mk ⟨10, 10, 30, 30⟩ [Resolved.mk ⟨15, 15, 20, 20⟩ []])
      (Resolved.mk ⟨15, 15, 20, 20⟩ []) hb (by simp [Resolved.children])
      (by simp only [Resolved.rect]; norm_num) (by simp only [Resolved.rect]; norm_num)

/-- C6: Color::blend with a fully opaque premultiplied source (a = 255)
returns the source exactly, and with the fully transparent premultiplied
source (0,0,0,0) returns the destination exactly, where blend computes
out.c = src.c + dst.c*(255-src.a)/255 independently on r, g, b, a. -/
theorem claim_C6_blend_opacity_identities (dst src : Color)
    (hd1 : dst.r ≤ 255) (hd2 : dst.g ≤ 255) (hd3 : dst.b ≤ 255) (hd4 : dst.a ≤ 255)
    (hs1 : src.r ≤ 255) (hs2 : src.g ≤ 255) (hs3 : src.b ≤ 255) :
    (src.a = 255 → Color.blend dst src = src) ∧
    (src.a = 0 ∧ src.r = 0 ∧ src.g = 0 ∧ src.b = 0 → Color.blend dst src = dst) := by
  constructor
  · intro ha
    exact blendFullCover dst src hs1 hs2 hs3 ha
  · rintro ⟨ha, hr, hg, hb⟩
    have hsrc : src = ⟨0, 0, 0, 0⟩ := by
      cases src
      simp_all
    rw [hsrc]
    exact blendNoCover dst hd1 hd2 hd3 hd4

/-- Witness for C6: blending the opaque (40,50,60,255) over (7,8,9,10)
yields the source, and blending (0,0,0,0) over (7,8,9,10) yields the
destination. -/
theorem claim_C6_witness :
    Color.blend ⟨7, 8, 9, 10⟩ ⟨40, 50, 60, 255⟩ = (⟨40, 50, 60, 255⟩ : Color) ∧
    Color.blend ⟨7, 8, 9, 10⟩ ⟨0, 0, 0, 0⟩ = (⟨7, 8, 9, 10⟩ : Color) := by
  have h1 := claim_C6_blend_opacity_identities ⟨7, 8, 9, 10⟩ ⟨40, 50, 60, 255⟩
    (by decide) (by decide) (by decide) (by decide) (by decide) (by decide) (by decide)
  have h2 := claim_C6_blend_opacity_identities ⟨7, 8, 9, 10⟩ ⟨0, 0, 0, 0⟩
    (by decide) (by decide) (by decide) (by decide) (by decide) (by decide) (by decide)
  exact ⟨h1.1 rfl, h2.2 ⟨rfl, rfl, rfl, rfl⟩⟩

/-- C7: under the premultiplication precondition (each of src.r, src.g,
src.b bounded by src.a) every addition inside Color::blend stays within
[0,255]: src.c + dst.c*(255-src.a)/255 never exceeds 255 for any u8 dst,
so the u8 additions cannot overflow (the modelled wraparound is the
identity) and every output channel lies in [0,255]. -/
theorem claim_C7_blend_additions_no_overflow (dst src : Color)
    (hr : src.r ≤ src.a) (hg : src.g ≤ src.a) (hb : src.b ≤ src.a) (ha : src.a ≤ 255)
    (hd1 : dst.r ≤ 255) (hd2 : dst.g ≤ 255) (hd3 : dst.b ≤ 255) (hd4 : dst.a ≤ 255) :
    (src.r + dst.r * (255 - src.a) / 255 ≤ 255 ∧
      (Color.blend dst src).r = src.r + dst.r * (255 - src.a) / 255) ∧
    (src.g + dst.g * (255 - src.a) / 255 ≤ 255 ∧
      (Color.blend dst src).g = src.g + dst.g * (255 - src.a) / 255) ∧
    (src.b + dst.b * (255 - src.a) / 255 ≤ 255 ∧
      (Color.blend dst src).b = src.b + dst.b * (255 - src.a) / 255) ∧
    (src.a + dst.a * (255 - src.a) / 255 ≤ 255 ∧
      (Color.blend dst src).a = src.a + dst.a * (255 - src.a) / 255) := by
  have b1 := chanTermBound dst.r src.a hd1
  have b2 := chanTermBound dst.g src.a hd2
  have b3 := chanTermBound dst.b src.a hd3
  have b4 := chanTermBound dst.a src.a hd4
  refine ⟨⟨by omega, ?_⟩, ⟨by omega, ?_⟩, ⟨by omega, ?_⟩, ⟨by omega, ?_⟩⟩ <;>
    simp only [Color.blend] <;> omega

/-- Witness for C7: the premultiplied source (100,50,0,100) blended over
white does not overflow on any channel. -/
theorem claim_C7_witness :
    ((100 : Nat) + 255 * (255 - 100) / 255 ≤ 255 ∧
      (Color.blend ⟨255, 255, 255, 255⟩ ⟨100, 50, 0, 100⟩).r =
        100 + 255 * (255 - 100) / 255) ∧
    ((50 : Nat) + 255 * (255 - 100) / 255 ≤ 255 ∧
      (Color.blend ⟨255, 255, 255, 255⟩ ⟨100, 50, 0, 100⟩).g =
        50 + 255 * (255 - 100) / 255) ∧
    ((0 : Nat) + 255 * (255 - 100) / 255 ≤ 255 ∧
      (Color.blend ⟨255, 255, 255, 255⟩ ⟨100, 50, 0, 100⟩).b =
        0 + 255 * (255 - 100) / 255) ∧
    ((100 : Nat) + 255 * (255 - 100) / 255 ≤ 255 ∧
      (Color.blend ⟨255, 255, 255, 255⟩ ⟨100, 50, 0, 100⟩).a =
        100 + 255 * (255 - 100) / 255) :=
  claim_C7_blend_additions_no_overflow ⟨255, 255, 255, 255⟩ ⟨100, 50, 0, 100⟩
    (by decide) (by decide) (by decide) (by decide) (by decide) (by decide) (by decide)
    (by decide)

/-- C8: a panel with active = false resolves to no node (its whole subtree
contributes zero resolved nodes to the parent's children list), and the
children list of any resolved node consists exactly of the Some results of
buffering the active children, in input order, against the parent's
clamped (left,top) anchor and (right-left, bottom-top) dimensions. -/
theorem claim_C8_inactive_absent_children_in_order (p : GUIPanel) (anchor pdims : ℚ × ℚ) :
    (p.active = false → p.buffer anchor pdims = none) ∧
    (∀ r, p.buffer anchor pdims = some r →
      r.children =
        (p.children.filter (fun c => c.active)).filterMap
          (fun c => c.buffer (r.rect.left, r.rect.top)
            (r.rect.right - r.rect.left, r.rect.bottom - r.rect.top))) := by
  constructor
  · intro ha
    exact (buffer_none_iff p anchor pdims).mpr ha
  · intro r h
    obtain ⟨-, -, hch⟩ := buffer_eq_some p anchor pdims r h
    rw [hch, bufferList_eq_filterMap, filterMap_buffer_filter_active]

/-- Witness for C8: an inactive panel with an (active) child buffers to
none, contributing zero resolved nodes. -/
theorem claim_C8_witness :
    GUIPanel.buffer
        (GUIPanel.mk "off" false (.absolute 0 0) (.absolute 5 5) (.text ⟨"t", 1, false⟩)
          [GUIPanel.mk "kid" true (.absolute 0 0) (.absolute 1 1) (.text ⟨"t", 1, false⟩) []])
        (0, 0) (10, 10) = none :=
  (claim_C8_inactive_absent_children_in_order
    (GUIPanel.mk "off" false (.absolute 0 0) (.absolute 5 5) (.text ⟨"t", 1, false⟩)
      [GUIPanel.mk "kid" true (.absolute 0 0) (.absolute 1 1) (.text ⟨"t", 1, false⟩) []])
    (0, 0) (10, 10)).1 rfl

/-- C9: for every text input, color, scale, font selection and box size
the text rasterizer returns a byte buffer of exactly width*height*4
bytes, and on every failure path (custom font data that does not parse,
or no pixel scale obtainable) it returns the all-zero fully transparent
buffer of that same size - never an error. -/
theorem claim_C9_rasterizer_size_and_failure (customFont parseOk hasPxScale : Bool)
    (outlines : List (Option GlyphOutline)) (col : ColorQ) (width height : Nat) :
    (get_rasterized_data_from_text customFont parseOk hasPxScale outlines col width
        height).length = width * height * 4 ∧
    ((customFont = true ∧ parseOk = false) ∨ hasPxScale = false →
      get_rasterized_data_from_text customFont parseOk hasPxScale outlines col width height =
        List.replicate (width * height * 4) 0) := by
  have hsz : width * 4 * height = width * height * 4 := by ring
  constructor
  · unfold get_rasterized_data_from_text
    cases customFont <;> cases parseOk <;> cases hasPxScale <;>
      simp [rasterize_length, hsz]
  · intro hfail
    unfold get_rasterized_data_from_text
    rcases hfail with ⟨hc, hp⟩ | hs
    · subst hc
      subst hp
      rw [hsz]
      rfl
    · subst hs
      cases customFont <;> cases parseOk <;> rw [hsz] <;> rfl

/-- Witness for C9: a custom font that fails to parse yields the all-zero
24-byte buffer for a 3x2 box. -/
theorem claim_C9_witness :
    get_rasterized_data_from_text true false true [] ⟨1, 1, 1, 1⟩ 3 2 =
      List.replicate 24 0 := by
  have h := (claim_C9_rasterizer_size_and_failure true false true [] ⟨1, 1, 1, 1⟩ 3 2).2
    (Or.inl ⟨rfl, rfl⟩)
  simpa using h

/-- C10: drawing the fully transparent all-zero pixel Rgba([0,0,0,0]) with
draw_rgba_point leaves every cell of the surface unchanged (inv_alpha is 1
and the float round-trip reproduces each stored channel exactly), and
consequently draw_sprite of an all-transparent-zero sprite is a no-op on
the surface. -/
theorem claim_C10_transparent_zero_noop (s : Surface) (p : P2) (w h : Nat) (q : P2)
    (hwf : SurfaceWF s) :
    (∀ x y, (s.draw_rgba_point p ⟨0, 0, 0, 0⟩).pix x y = s.pix x y) ∧
    (∀ x y, (s.draw_sprite ⟨w, h, fun _ _ => ⟨0, 0, 0, 0⟩⟩ q).pix x y = s.pix x y) :=
  ⟨zero_point_noop s p hwf, fun x y => sprite_zero_noop s w h q hwf x y⟩

/-- Witness for C10: on a 2x2 surface holding (9,8,7,6) everywhere, a zero
pixel write at (0,0) and a 2x2 all-zero sprite blit at (1,0) both leave
the inspected cells unchanged. -/
theorem claim_C10_witness :
    ((⟨2, 2, ⟨0, 0, 0, 0⟩, fun _ _ => ⟨9, 8, 7, 6⟩⟩ : Surface).draw_rgba_point ⟨0, 0⟩
        ⟨0, 0, 0, 0⟩).pix 0 0 = (⟨9, 8, 7, 6⟩ : Rgba) ∧
    ((⟨2, 2, ⟨0, 0, 0, 0⟩, fun _ _ => ⟨9, 8, 7, 6⟩⟩ : Surface).draw_sprite
        ⟨2, 2, fun _ _ => ⟨0, 0, 0, 0⟩⟩ ⟨1, 0⟩).pix 1 1 = (⟨9, 8, 7, 6⟩ : Rgba) := by
  have h := claim_C10_transparent_zero_noop
    (⟨2, 2, ⟨0, 0, 0, 0⟩, fun _ _ => ⟨9, 8, 7, 6⟩⟩ : Surface) ⟨0, 0⟩ 2 2 ⟨1, 0⟩
    (fun _ _ => by refine ⟨?_, ?_, ?_, ?_⟩ <;> simp)
  exact ⟨h.1 0 0, h.2 1 1⟩
